import Mathlib

/-!
The `Footer` component of stx-savings-vault.

A verification development for `frontend/src/Footer.js`:

```
const Footer = () => {
  return (
    <footer style={{ backgroundColor: '#333', color: 'white', padding: '1rem', textAlign: 'center' }}>
      <p>&copy; 2024 STX Savings Vault. All rights reserved.</p>
    </footer>
  );
};
```

The component is embedded as a Lean function from props to a view tree.  The JSX
constructs of the source are embedded as functions: `createElement` builds an element,
`jsxText` gives the meaning of a piece of JSX text (character references decoded,
whitespace next to line breaks removed, blank text dropped) and `jsxChildren` assembles
a child list.  `Footer` is then a transcription of the source, line by line.
-/

namespace StxSavingsVault

/-! ## View trees -/

/-- Value of a prop: a string, or an object literal with string-valued entries
(the `style` object of the source), entries kept in source order. -/
inductive PropValue where
  | str (s : String)
  | object (entries : List (String × String))
  deriving DecidableEq, Repr

/-- Props object: named entries in source order. -/
abbrev Props := List (String × PropValue)

/-- View tree: what a component may return.  `null` renders nothing, `text` is a text
node, `element` is an element with its type (a tag name for a host element, a
component name otherwise), its attributes and its children. -/
inductive ReactNode where
  | null
  | text (value : String)
  | element (type : String) (props : Props) (children : List ReactNode)

/-- JSX runtime: an element of the given type, attributes and children. -/
def createElement (type : String) (props : Props) (children : List ReactNode) : ReactNode :=
  .element type props children

/-! ## JSX text -/

/-- Named character references that JSX text decodes (name, code point): the part of the
XHTML table around `copy`, the one reference the source uses. -/
def xhtmlEntities : List (String × Nat) :=
  [("quot", 34), ("amp", 38), ("apos", 39), ("lt", 60), ("gt", 62),
   ("nbsp", 160), ("copy", 169), ("reg", 174)]

/-- Decoding of `&name;` references in JSX text.  The second argument is the reference
being read, if any, as the characters seen since its `&`, most recent first.  An unknown
or unterminated reference stays as written. -/
def decodeEntities : List Char → Option (List Char) → List Char
  | [], none => []
  | [], some acc => '&' :: acc.reverse
  | c :: cs, none =>
    if c = '&' then decodeEntities cs (some []) else c :: decodeEntities cs none
  | c :: cs, some acc =>
    if c = ';' then
      match xhtmlEntities.lookup (String.mk acc.reverse) with
      | some n => Char.ofNat n :: decodeEntities cs none
      | none => '&' :: (acc.reverse ++ ';' :: decodeEntities cs none)
    else if c = '&' then '&' :: (acc.reverse ++ decodeEntities cs (some []))
    else decodeEntities cs (some (c :: acc))

/-- Lines of a text, broken at `\n`, `\r\n` or `\r`. -/
def splitLines : List Char → List (List Char)
  | [] => [[]]
  | c :: cs =>
    if c = '\n' then [] :: splitLines cs
    else if c = '\r' then
      match cs with
      | [] => [[], []]
      | d :: ds => if d = '\n' then [] :: splitLines ds else [] :: splitLines (d :: ds)
    else
      match splitLines cs with
      | [] => [[c]]
      | l :: ls => (c :: l) :: ls

/-- A line is blank when it holds nothing but spaces and tabs. -/
def isBlankLine (line : List Char) : Bool :=
  line.all fun c => c = ' ' || c = '\t'

/-- Index of the last line that is not blank (0 when every line is blank). -/
def lastNonEmptyLine (lines : List (List Char)) : Nat :=
  lines.enum.foldl (fun last il => if isBlankLine il.2 then last else il.1) 0

/-- One line of JSX text, cleaned: tabs become spaces, spaces touching a line break are
removed (leading ones except on the first line, trailing ones except on the last). -/
def trimLine (isFirst isLast : Bool) (line : List Char) : List Char :=
  let l0 := line.map fun c => if c = '\t' then ' ' else c
  let l1 := if isFirst then l0 else l0.dropWhile (· = ' ')
  if isLast then l1 else (l1.reverse.dropWhile (· = ' ')).reverse

/-- Whitespace cleaning of a JSX text child: every line is trimmed, empty lines are
dropped, and the remaining lines are joined by single spaces. -/
def cleanJSXText (value : List Char) : List Char :=
  let lines := splitLines value
  let n := lines.length
  let last := lastNonEmptyLine lines
  lines.enum.foldl (fun str il =>
    let t := trimLine (il.1 = 0) (il.1 + 1 = n) il.2
    if t.isEmpty then str
    else if il.1 = last then str ++ t else str ++ t ++ [' ']) []

/-- Meaning of a JSX text child: references are decoded, whitespace is cleaned, and text
that is empty afterwards yields no child. -/
def jsxText (raw : String) : Option String :=
  let s := cleanJSXText (decodeEntities raw.data none)
  if s.isEmpty then none else some (String.mk s)

/-- Child of a JSX element as written: a run of text, or a nested element. -/
inductive JSXChild where
  | text (raw : String)
  | node (n : ReactNode)

/-- Child list of a JSX element: each text run through `jsxText`, elements as they are. -/
def jsxChildren : List JSXChild → List ReactNode
  | [] => []
  | .text raw :: rest =>
    match jsxText raw with
    | some s => .text s :: jsxChildren rest
    | none => jsxChildren rest
  | .node n :: rest => n :: jsxChildren rest

/-! ## The component -/

/-- The `Footer` component of `Footer.js`.  The arrow function declares no parameter, so
whatever it is called with is ignored: `none` is a call without argument, `some props` a
call with a props object. -/
def Footer (_props : Option Props) : ReactNode :=
  createElement "footer"
    [("style", .object [("backgroundColor", "#333"), ("color", "white"),
                        ("padding", "1rem"), ("textAlign", "center")])]
    (jsxChildren
      [.text "\n      ",
       .node (createElement "p" []
         (jsxChildren [.text "&copy; 2024 STX Savings Vault. All rights reserved."])),
       .text "\n    "])

/-! ## Observations on view trees -/

mutual
/-- Text content: the text nodes of a tree, concatenated in document order. -/
def textContent : ReactNode → String
  | .null => ""
  | .text s => s
  | .element _ _ cs => textContentList cs
/-- Text content of a list of siblings. -/
def textContentList : List ReactNode → String
  | [] => ""
  | c :: cs => textContent c ++ textContentList cs
end

/-- Attributes of an element (none for a text node or `null`). -/
def ReactNode.attributes : ReactNode → Props
  | .element _ props _ => props
  | _ => []

/-- Direct children of an element (none for a text node or `null`). -/
def ReactNode.children : ReactNode → List ReactNode
  | .element _ _ cs => cs
  | _ => []

/-- Whether a node is a text node. -/
def ReactNode.isText : ReactNode → Bool
  | .text _ => true
  | _ => false

/-- Entries of the `style` attribute of an element, keyed as in the source. -/
def styleOf (n : ReactNode) : Option (List (String × String)) :=
  match n.attributes.lookup "style" with
  | some (.object entries) => some entries
  | _ => none

/-- Hyphenation of the characters of a style key: each capital letter becomes a hyphen
followed by the small letter. -/
def hyphenateChars : List Char → List Char
  | [] => []
  | c :: cs => if c.isUpper then '-' :: c.toLower :: hyphenateChars cs else c :: hyphenateChars cs

/-- CSS property named by a style key, as React DOM writes it to the `style` attribute:
`backgroundColor` names `background-color`, and a leading `ms-` becomes `-ms-`. -/
def hyphenateStyleName (name : String) : String :=
  match hyphenateChars name.data with
  | 'm' :: 's' :: '-' :: rest => String.mk ('-' :: 'm' :: 's' :: '-' :: rest)
  | cs => String.mk cs

/-- Entries of the `style` attribute of an element, keyed by CSS property name. -/
def cssStyleOf (n : ReactNode) : Option (List (String × String)) :=
  (styleOf n).map fun entries => entries.map fun kv => (hyphenateStyleName kv.1, kv.2)

/-- JSX element types: a name starting with a small letter is a host (built-in) element,
any other name refers to a component. -/
def isHostType (type : String) : Bool :=
  match type.data with
  | [] => false
  | c :: _ => c.isLower

mutual
/-- Number of element nodes of a tree. -/
def countElements : ReactNode → Nat
  | .null => 0
  | .text _ => 0
  | .element _ _ cs => 1 + countElementsList cs
/-- Number of element nodes among siblings and their descendants. -/
def countElementsList : List ReactNode → Nat
  | [] => 0
  | c :: cs => countElements c + countElementsList cs
end

mutual
/-- Number of text nodes of a tree. -/
def countTexts : ReactNode → Nat
  | .null => 0
  | .text _ => 1
  | .element _ _ cs => countTextsList cs
/-- Number of text nodes among siblings and their descendants. -/
def countTextsList : List ReactNode → Nat
  | [] => 0
  | c :: cs => countTexts c + countTextsList cs
end

mutual
/-- Every element node of the tree is a host element. -/
def allHost : ReactNode → Bool
  | .null => true
  | .text _ => true
  | .element type _ cs => isHostType type && allHostList cs
/-- Every element node among siblings and their descendants is a host element. -/
def allHostList : List ReactNode → Bool
  | [] => true
  | c :: cs => allHost c && allHostList cs
end

/-- The copyright line, its first character being U+00A9. -/
def copyrightLine : String := "© 2024 STX Savings Vault. All rights reserved."

/-! ## Theorems -/

/-- The source, evaluated: the tree that `Footer` builds for any argument. -/
theorem Footer_eq_tree (props : Option Props) :
    Footer props =
      .element "footer"
        [("style", .object [("backgroundColor", "#333"), ("color", "white"),
                            ("padding", "1rem"), ("textAlign", "center")])]
        [.element "p" [] [.text "© 2024 STX Savings Vault. All rights reserved."]] := by
  rfl

/-- C1: for every input, the text content of the tree returned by `Footer` (its text
nodes concatenated in document order) is exactly
"© 2024 STX Savings Vault. All rights reserved.": the first character is U+00A9, the
decoded `&copy;` reference, the last one is the full stop, and neither end is
whitespace. -/
theorem Footer_textContent (props : Option Props) :
    textContent (Footer props) = "© 2024 STX Savings Vault. All rights reserved." ∧
    (textContent (Footer props)).data.head? = some (Char.ofNat 0xA9) ∧
    (textContent (Footer props)).data.getLast? = some '.' ∧
    (textContent (Footer props)).data.head?.all (fun c => !c.isWhitespace) = true ∧
    (textContent (Footer props)).data.getLast?.all (fun c => !c.isWhitespace) = true ∧
    (textContent (Footer props)).length = 46 := by
  have h : Footer props = Footer none := rfl
  rw [h]
  refine ⟨rfl, ?_, ?_, ?_, ?_, ?_⟩ <;> decide

/-- C2, as stated, fails: the style of the root element is not the set of entries
background `#333`, color `white`, padding `1rem`, text-align `center`.  It has no entry
named `background`, neither under the keys of the source nor under CSS property names;
its `#333` entry is `backgroundColor`, that is `background-color`. -/
theorem Footer_style_not_background :
    (¬ ∃ entries, cssStyleOf (Footer none) = some entries ∧
        ∀ kv, kv ∈ entries ↔
          kv ∈ [("background", "#333"), ("color", "white"), ("padding", "1rem"),
                ("text-align", "center")]) ∧
    (¬ ∃ entries, styleOf (Footer none) = some entries ∧
        ∀ kv, kv ∈ entries ↔
          kv ∈ [("background", "#333"), ("color", "white"), ("padding", "1rem"),
                ("textAlign", "center")]) ∧
    (cssStyleOf (Footer none)).map (List.lookup "background") = some none ∧
    (styleOf (Footer none)).map (List.lookup "background") = some none := by
  refine ⟨?_, ?_, by decide, by decide⟩
  · rintro ⟨entries, h, hmem⟩
    have he : entries = [("background-color", "#333"), ("color", "white"),
        ("padding", "1rem"), ("text-align", "center")] :=
      (Option.some.inj h).symm
    subst he
    exact absurd ((hmem ("background", "#333")).2 (by decide)) (by decide)
  · rintro ⟨entries, h, hmem⟩
    have he : entries = [("backgroundColor", "#333"), ("color", "white"),
        ("padding", "1rem"), ("textAlign", "center")] :=
      (Option.some.inj h).symm
    subst he
    exact absurd ((hmem ("background", "#333")).2 (by decide)) (by decide)

/-- C2, amended: for every input, the style attribute of the root element is exactly the
four entries `backgroundColor: #333`, `color: white`, `padding: 1rem`,
`textAlign: center`, in CSS property names background-color `#333`, color `white`,
padding `1rem`, text-align `center`; it has no other entry, no entry twice, and none of
the four has a different value. -/
theorem Footer_style_entries (props : Option Props) :
    styleOf (Footer props) =
      some [("backgroundColor", "#333"), ("color", "white"), ("padding", "1rem"),
            ("textAlign", "center")] ∧
    cssStyleOf (Footer props) =
      some [("background-color", "#333"), ("color", "white"), ("padding", "1rem"),
            ("text-align", "center")] := by
  have hc : cssStyleOf (Footer props) =
      some [("background-color", "#333"), ("color", "white"), ("padding", "1rem"),
            ("text-align", "center")] := by
    have h : Footer props = Footer none := rfl
    rw [h]
    decide
  exact ⟨rfl, hc⟩

/-- C3, as stated, fails: the direct children of the root element are not a single text
node.  The only direct child is an element, so no text node is a direct child. -/
theorem Footer_child_not_text :
    (¬ ∃ s, (Footer none).children = [ReactNode.text s]) ∧
    (¬ ∃ type attrs s, Footer none = ReactNode.element type attrs [ReactNode.text s]) ∧
    (Footer none).children.any ReactNode.isText = false := by
  refine ⟨?_, ?_, by decide⟩
  · rintro ⟨s, h⟩
    have h1 : (Footer none).children =
        [.element "p" [] [.text "© 2024 STX Savings Vault. All rights reserved."]] := rfl
    rw [h1] at h
    cases h
  · rintro ⟨type, attrs, s, h⟩
    rw [Footer_eq_tree] at h
    cases h

/-- C3, amended: for every input, the tree returned by `Footer` is a styled element
whose list of direct children is exactly one `p` element, and the list of direct
children of that `p` is exactly one text node reading
"© 2024 STX Savings Vault. All rights reserved."; one intermediate element, the `p`,
stands between the styled element and the text. -/
theorem Footer_child_is_paragraph (props : Option Props) :
    (∃ type style, Footer props =
      .element type [("style", style)]
        [.element "p" [] [.text "© 2024 STX Savings Vault. All rights reserved."]]) ∧
    (styleOf (Footer props)).isSome = true ∧
    (Footer props).children =
      [.element "p" [] [.text "© 2024 STX Savings Vault. All rights reserved."]] ∧
    (Footer props).children.map ReactNode.children =
      [[.text "© 2024 STX Savings Vault. All rights reserved."]] :=
  ⟨⟨_, _, rfl⟩, rfl, rfl, rfl⟩

/-- C4: `Footer` is a constant function of its input.  Any two calls, with any props or
with none, return the same tree; in particular two calls with the same input do. -/
theorem Footer_constant (p q : Option Props) :
    Footer p = Footer q ∧ Footer p = Footer none ∧ Footer p = Footer (some []) :=
  ⟨rfl, rfl, rfl⟩

/-- C5: `Footer` cannot fail.  It is a total function with no precondition, and for every
input its result is an element: not `null`, not a bare text node, and not an empty tree
(it has element nodes and text). -/
theorem Footer_total (props : Option Props) :
    (∃ type attrs children, Footer props = .element type attrs children) ∧
    Footer props ≠ .null ∧
    (∀ s, Footer props ≠ .text s) ∧
    0 < countElements (Footer props) ∧
    0 < countTexts (Footer props) ∧
    (Footer props).children ≠ [] := by
  have hn : Footer props = Footer none := rfl
  refine ⟨⟨_, _, _, rfl⟩, ?_, ?_, by rw [hn]; decide, by rw [hn]; decide, ?_⟩
  · intro h
    rw [Footer_eq_tree] at h
    cases h
  · intro s h
    rw [Footer_eq_tree] at h
    cases h
  · intro h
    have h1 : (Footer props).children =
        [.element "p" [] [.text "© 2024 STX Savings Vault. All rights reserved."]] := rfl
    rw [h1] at h
    cases h

/-- C6: for every input the tree returned by `Footer` has exactly this shape: the root is
the host element `footer` whose only attribute is `style`; its only child is the host
element `p`, which has no attribute; the only child of `p` is the one text node of the
tree.  Every element node is a host element (no component node), and the tree has
exactly two element nodes and one text node. -/
theorem Footer_shape (props : Option Props) :
    (∃ style s, Footer props =
      .element "footer" [("style", style)] [.element "p" [] [.text s]]) ∧
    (Footer props).attributes.map Prod.fst = ["style"] ∧
    (Footer props).children.map ReactNode.attributes = [[]] ∧
    isHostType "footer" = true ∧
    isHostType "p" = true ∧
    allHost (Footer props) = true ∧
    countElements (Footer props) = 2 ∧
    countTexts (Footer props) = 1 := by
  have h : Footer props = Footer none := rfl
  rw [h]
  refine ⟨⟨_, _, rfl⟩, rfl, rfl, ?_, ?_, ?_, ?_, ?_⟩ <;> decide

end StxSavingsVault
